import Mathlib

/-!
# Verification of the SLDEMO sea-level analysis notebooks

The repository consists of two Jupyter notebooks
(`Plot_Sea_Level_From_a_GFDL_Boussinesq_Ocean_Model.ipynb` and an unnamed
variant) that query a CMIP6 cloud catalog, open remote Zarr stores, merge
them into one dataset, and compute derived sea-level quantities
(area-weighted global means, annual averages, tide-gauge extraction and a
steric sea-level change) before plotting.

This file gives a shallow embedding of the notebook pipeline.  The
notebooks' own code is glue: every numerical routine is delegated to an
external library (`xarray`, `momlevel`, `intake-esm`), whose sources are
not part of this repository.  Those library behaviours are therefore
modelled from the specification's own description of them; each such
definition carries a doc comment starting with `Modelled from the spec:`.
Notebook-owned logic (the wet-mask construction, the time-window selection
and the arguments of each call) is translated directly from the notebook
cells.

Real-valued data is modelled with `ℚ` so that every definition is
executable and every concrete evaluation is decidable.
-/

set_option autoImplicit false

namespace SLDemo

/-! ## Annual averaging (`momlevel.util.annual_average`)

The notebooks call `momlevel.util.annual_average` on a monthly time
series.  A monthly series is modelled as a list of (calendar year, value)
pairs in time order. -/

/-- A monthly time series: (calendar year, value) samples in time order. -/
abbrev MonthlySeries := List (Nat × ℚ)

/-- Per-year accumulator entries: (year, running sum, running month count). -/
abbrev YearAcc := List (Nat × ℚ × Nat)

/-- Add one monthly sample to the per-year accumulator, preserving
first-appearance order of the years. -/
def addSample (acc : YearAcc) (y : Nat) (v : ℚ) : YearAcc :=
  match acc with
  | [] => [(y, v, 1)]
  | (y', s, c) :: rest =>
      if y' = y then (y', s + v, c + 1) :: rest
      else (y', s, c) :: addSample rest y v

/-- Fold a monthly series into the per-year accumulator. -/
def accumulateYears (acc : YearAcc) : MonthlySeries → YearAcc
  | [] => acc
  | (y, v) :: rest => accumulateYears (addSample acc y v) rest

/-- Modelled from the spec: `momlevel.util.annual_average` (the `momlevel`
library is not part of this repository; the spec states the policy as the
arithmetic mean of the months falling in each calendar year, edge years
with fewer than 12 months averaged over however many are present).
Groups the monthly samples by calendar year and returns, per year in
first-appearance order, the arithmetic mean of that year's samples. -/
def annual_average (l : MonthlySeries) : MonthlySeries :=
  (accumulateYears [] l).map (fun e => (e.1, e.2.1 / (e.2.2 : ℚ)))

/-- The monthly values of series `l` falling in calendar year `y`. -/
def yearValues (l : MonthlySeries) (y : Nat) : List ℚ :=
  (l.filter (fun p => p.1 = y)).map Prod.snd

/-- Association-list lookup by calendar year (first match wins). -/
def lookupYear {α : Type} (y : Nat) : List (Nat × α) → Option α
  | [] => none
  | (y', v) :: rest => if y' = y then some v else lookupYear y rest

/-- Combine an optional (sum, count) entry with one more value. -/
def addOpt (o : Option (ℚ × Nat)) (v : ℚ) : Option (ℚ × Nat) :=
  match o with
  | none => some (v, 1)
  | some (s, c) => some (s + v, c + 1)

/-! ## Area-weighted global mean (`ds.zos.weighted(ds.areacello).mean(("y","x"))`)

The notebooks form the global monthly series by weighting the 2-D `zos`
field with the static cell-area field `areacello` and reducing over the
two spatial axes `y` and `x`. -/

/-- A 2-D spatial field (rows indexed by `y`, columns by `x`). -/
abbrev Grid := List (List ℚ)

/-- Modelled from the spec: the unweighted spatial mean of a 2-D field
over its two spatial axes (the arithmetic mean of all cells). -/
def unweightedMean (f : Grid) : ℚ := f.flatten.sum / (f.flatten.length : ℚ)

/-- Modelled from the spec: `xarray`'s weighted reduction
`f.weighted(w).mean(("y","x"))` for one time slice — the sum of cellwise
products divided by the sum of the weights. -/
def weightedMean (f w : Grid) : ℚ :=
  (List.zipWith (· * ·) f.flatten w.flatten).sum / w.flatten.sum

/-- The notebook's global monthly series: the weighted spatial mean of
each time slice of the field, with one static weight field. -/
def globalMeanSeries (fs : List Grid) (w : Grid) : List ℚ :=
  fs.map (fun f => weightedMean f w)

/-! ## Catalog query (`intake.open_esm_datastore` / `col.search`)

Both notebooks query the Pangeo CMIP6 catalog with equality/membership
filters (cells 11 and 24 of the named notebook). -/

/-- A catalog row, as the spec's data model lists it: (experiment id,
table id, variable id, grid label, member id, source id, store location). -/
structure CatalogRow where
  experiment_id : String
  table_id : String
  variable_id : String
  grid_label : String
  member_id : String
  source_id : String
  zstore : String
deriving DecidableEq

/-- The filter criteria of a `col.search(...)` call: list-valued criteria
are membership filters, string-valued ones equality filters. -/
structure Query where
  experiment_id : List String
  table_id : List String
  variable_id : List String
  grid_label : String
  member_id : String
  source_id : String
deriving DecidableEq

/-- Whether one catalog row satisfies every filter of a query. -/
def matchesQuery (q : Query) (r : CatalogRow) : Bool :=
  q.experiment_id.contains r.experiment_id &&
  q.table_id.contains r.table_id &&
  q.variable_id.contains r.variable_id &&
  (r.grid_label == q.grid_label) &&
  (r.member_id == q.member_id) &&
  (r.source_id == q.source_id)

/-- Modelled from the spec: `col.search` of `intake-esm` (an external
library) — the rows of the catalog that satisfy every equality/membership
filter of the query. -/
def search (catalog : List CatalogRow) (q : Query) : List CatalogRow :=
  catalog.filter (matchesQuery q)

/-- The first query of the notebooks (cell 11): `zos` and `areacello` for
the GFDL-ESM4 historical run. -/
def zosQuery : Query :=
  ⟨["historical"], ["Ofx", "Omon"], ["areacello", "zos"],
    "gn", "r1i1p1f1", "GFDL-ESM4"⟩

/-- Modelled from the spec: the remote Pangeo CMIP6 catalog content is
not part of this repository; the spec's end-to-end scenario requires the
GFDL-ESM4 historical `zos`/`areacello` rows to be present.  A small
catalog with those two rows plus non-matching rows of other experiments
and models. -/
def pangeoCatalog : List CatalogRow :=
  [⟨"historical", "Omon", "zos", "gn", "r1i1p1f1", "GFDL-ESM4",
      "gs://cmip6/CMIP6/CMIP/NOAA-GFDL/GFDL-ESM4/historical/r1i1p1f1/Omon/zos/gn/"⟩,
   ⟨"historical", "Ofx", "areacello", "gn", "r1i1p1f1", "GFDL-ESM4",
      "gs://cmip6/CMIP6/CMIP/NOAA-GFDL/GFDL-ESM4/historical/r1i1p1f1/Ofx/areacello/gn/"⟩,
   ⟨"ssp585", "Omon", "zos", "gn", "r1i1p1f1", "GFDL-ESM4",
      "gs://cmip6/ScenarioMIP/NOAA-GFDL/GFDL-ESM4/ssp585/r1i1p1f1/Omon/zos/gn/"⟩,
   ⟨"historical", "Omon", "zos", "gn", "r1i1p1f1", "GFDL-CM4",
      "gs://cmip6/CMIP6/CMIP/NOAA-GFDL/GFDL-CM4/historical/r1i1p1f1/Omon/zos/gn/"⟩]

/-! ## Dataset merge (`xr.merge`)

Both notebooks open one Zarr store per catalog row and merge the
resulting per-variable datasets into a single dataset (cells 12 and 25). -/

/-- A labeled dataset: shared coordinate axes plus named variables. -/
structure DSet where
  coords : List (String × List ℚ)
  vars : List (String × List ℚ)
deriving DecidableEq

/-- Association-list lookup by name (first match wins). -/
def lookupName {α : Type} (n : String) : List (String × α) → Option α
  | [] => none
  | (n', v) :: rest => if n' = n then some v else lookupName n rest

/-- The failure modes of the merge stage named by the spec. -/
inductive MergeError where
  | emptyInput
  | misaligned
  | conflict
deriving DecidableEq

/-- Modelled from the spec: merging one more dataset into an accumulated
one — coordinate axes must be compatible (aligned) or the merge fails;
variables are unioned, a variable present on both sides must carry equal
data. -/
def mergeTwo (a b : DSet) : Except MergeError DSet :=
  if a.coords = b.coords then
    if b.vars.all (fun p =>
        match lookupName p.1 a.vars with
        | none => true
        | some d => d = p.2) then
      Except.ok ⟨a.coords,
        a.vars ++ b.vars.filter (fun p => (lookupName p.1 a.vars).isNone)⟩
    else Except.error MergeError.conflict
  else Except.error MergeError.misaligned

/-- Left fold of `mergeTwo` over the remaining datasets, propagating the
first failure. -/
def mergeFrom (acc : DSet) : List DSet → Except MergeError DSet
  | [] => Except.ok acc
  | d :: rest =>
      match mergeTwo acc d with
      | Except.ok m => mergeFrom m rest
      | Except.error e => Except.error e

/-- Modelled from the spec: `xr.merge` over the list of per-variable
datasets; an empty input list is the spec's "empty input" failure. -/
def merge : List DSet → Except MergeError DSet
  | [] => Except.error MergeError.emptyInput
  | d :: rest => mergeFrom d rest

/-- The variable names of a dataset. -/
def varNames (d : DSet) : List String := d.vars.map Prod.fst

/-- The notebooks' load-and-merge pipeline: query the catalog, open one
store per returned row, merge the per-variable datasets.  The store
loader is a parameter (the remote Zarr content is not in the repository);
failures of `merge` propagate to the caller unrecovered. -/
def loadAndMerge (load : CatalogRow → DSet) (catalog : List CatalogRow)
    (q : Query) : Except MergeError DSet :=
  merge ((search catalog q).map load)

/-! ## Tide-gauge extraction (`momlevel.extract_tidegauge`)

The named notebook (cell 16) calls
`momlevel.extract_tidegauge(ds.zos, ds.lon, ds.lat, mask=ds.wet,
threshold=75.0)`. -/

/-- One grid point as seen from a named location: its distance from the
location and whether the wet/dry mask marks it valid (wet). -/
structure GaugeCandidate where
  dist : ℚ
  wet : Bool
deriving DecidableEq

/-- The minimum-distance candidate of a list, if any. -/
def minByDist : List GaugeCandidate → Option GaugeCandidate
  | [] => none
  | c :: rest =>
      match minByDist rest with
      | none => some c
      | some m => if c.dist ≤ m.dist then some c else some m

/-- The nearest wet grid point among the candidates, if any. -/
def nearestWet (cands : List GaugeCandidate) : Option GaugeCandidate :=
  minByDist (cands.filter (fun c => c.wet))

/-- Modelled from the spec: `momlevel.extract_tidegauge` (external
library) — for each named location, select the nearest valid (wet) grid
point; a location whose nearest wet point exceeds the distance threshold
— or that has no wet point at all — is excluded from the result rather
than reported. -/
def extract_tidegauge (locs : List (String × List GaugeCandidate))
    (threshold : ℚ) : List (String × GaugeCandidate) :=
  locs.filterMap (fun loc =>
    match nearestWet loc.2 with
    | none => none
    | some c => if c.dist ≤ threshold then some (loc.1, c) else none)

/-- The distance threshold the notebook passes (cell 16). -/
def tideGaugeThreshold : ℚ := 75

/-! ## Wet/dry mask (`ds["wet"]`, cell 12 of the named notebook)

`ds["wet"] = xr.where(ds.zos.isel(time=0).isnull(), 0.0, 1.0)` -/

/-- One time slice of a field with missing values (`None` ≙ null/NaN). -/
abbrev MaskedGrid := List (List (Option ℚ))

/-- The notebook's wet mask: 0.0 where `zos` at time index 0 is null,
1.0 otherwise (`xr.where(ds.zos.isel(time=0).isnull(), 0.0, 1.0)`). -/
def wetMask (zos : List MaskedGrid) : Grid :=
  (zos.headD []).map (fun row =>
    row.map (fun v => if v.isNone then (0 : ℚ) else 1))

/-- The mask value at grid indices (i, j), when in range. -/
def maskAt (m : Grid) (i j : Nat) : Option ℚ :=
  m[i]?.bind (fun row => row[j]?)

/-- The field value at grid indices (i, j) of one time slice, when in
range (`some none` is an in-range null cell). -/
def fieldAt (g : MaskedGrid) (i j : Nat) : Option (Option ℚ) :=
  g[i]?.bind (fun row => row[j]?)

/-! ## Steric computation window (`momlevel.steric`, cell 26)

`steric = momlevel.steric(ds.isel(time=slice(-360, None)),
domain="global", coord_names={"z": "lev"})` -/

/-- Python's `isel(time=slice(-n, None))`: the trailing `n` entries of
the time axis (the whole axis when it is shorter than `n`). -/
def lastTimeWindow {α : Type} (n : Nat) (ts : List α) : List α :=
  ts.drop (ts.length - n)

/-- The time window the notebook feeds to `momlevel.steric`: the last
360 time steps of the merged dataset. -/
def stericInput {α : Type} (ts : List α) : List α :=
  lastTimeWindow 360 ts

/-- The keyword options of a `momlevel.steric` call that the notebook
can fix: an optional analysis domain and the coordinate-name mapping. -/
structure StericOpts where
  domain : Option String
  coordNames : List (String × String)
deriving DecidableEq

/-- The options the notebook's steric call fixes (cell 26):
`domain="global"` and `coord_names={"z": "lev"}`. -/
def notebookStericOpts : StericOpts :=
  ⟨some "global", [("z", "lev")]⟩

/-! ## Theorems -/

theorem addSample_lookup (acc : YearAcc) (y y' : Nat) (v : ℚ) :
    lookupYear y' (addSample acc y v) =
      if y' = y then addOpt (lookupYear y' acc) v else lookupYear y' acc := by
  induction acc with
  | nil =>
      by_cases h : y' = y
      · subst h
        simp [addSample, lookupYear, addOpt]
      · simp [addSample, lookupYear, addOpt, h, Ne.symm h]
  | cons e rest ih =>
      obtain ⟨y₀, s, c⟩ := e
      by_cases h0 : y₀ = y
      · subst h0
        by_cases h : y₀ = y'
        · subst h
          simp [addSample, lookupYear, addOpt]
        · simp [addSample, lookupYear, addOpt, h, Ne.symm h]
      · by_cases h : y₀ = y'
        · subst h
          simp [addSample, lookupYear, h0, addOpt, Ne.symm h0]
        · simp [addSample, h0, lookupYear, h, ih]

theorem accumulateYears_lookup (l : MonthlySeries) (acc : YearAcc) (y : Nat) :
    lookupYear y (accumulateYears acc l) =
      (yearValues l y).foldl addOpt (lookupYear y acc) := by
  induction l generalizing acc with
  | nil => simp [accumulateYears, yearValues]
  | cons p rest ih =>
      obtain ⟨y', v⟩ := p
      by_cases h : y = y'
      · subst h
        simp [accumulateYears, yearValues, List.filter, ih,
          addSample_lookup, yearValues]
      · simp [accumulateYears, yearValues, List.filter, Ne.symm h, ih,
          addSample_lookup, h, yearValues]

theorem foldl_addOpt_some (vs : List ℚ) (s : ℚ) (c : Nat) :
    vs.foldl addOpt (some (s, c)) = some (s + vs.sum, c + vs.length) := by
  induction vs generalizing s c with
  | nil => simp
  | cons v vs ih =>
      simp only [List.foldl_cons, addOpt, ih, List.sum_cons, List.length_cons,
        Option.some.injEq, Prod.mk.injEq]
      refine ⟨by rw [add_assoc], by omega⟩

theorem foldl_addOpt_none (vs : List ℚ) (hvs : vs ≠ []) :
    vs.foldl addOpt none = some (vs.sum, vs.length) := by
  match vs with
  | [] => exact absurd rfl hvs
  | v :: vs =>
      simp only [List.foldl_cons, addOpt, foldl_addOpt_some,
        List.sum_cons, List.length_cons, Option.some.injEq, Prod.mk.injEq]
      exact ⟨trivial, by omega⟩

theorem lookup_map_mean (acc : YearAcc) (y : Nat) :
    lookupYear y (acc.map (fun e => (e.1, e.2.1 / (e.2.2 : ℚ)))) =
      (lookupYear y acc).map (fun e => e.1 / (e.2 : ℚ)) := by
  induction acc with
  | nil => simp [lookupYear]
  | cons e rest ih =>
      obtain ⟨y₀, s, c⟩ := e
      by_cases h : y₀ = y <;>
        simp [lookupYear, h, ih]

theorem yearValues_ne_nil (l : MonthlySeries) (y : Nat)
    (hy : y ∈ l.map Prod.fst) : yearValues l y ≠ [] := by
  induction l with
  | nil => simp at hy
  | cons p rest ih =>
      obtain ⟨y', v⟩ := p
      by_cases h : y' = y
      · subst h
        simp [yearValues, List.filter]
      · simp only [List.map_cons, List.mem_cons] at hy
        rcases hy with hy | hy
        · exact absurd hy.symm h
        · simpa [yearValues, List.filter, h] using ih hy

/-- C2 — For every monthly series and every calendar year present in it,
`annual_average` reports for that year the plain arithmetic mean of the
monthly values falling in that year (in particular, an edge year with
fewer than 12 months present is averaged over however many are there). -/
theorem annual_average_is_yearly_mean (l : MonthlySeries) (y : Nat)
    (hy : y ∈ l.map Prod.fst) :
    lookupYear y (annual_average l) =
      some ((yearValues l y).sum / ((yearValues l y).length : ℚ)) := by
  unfold annual_average
  rw [lookup_map_mean, accumulateYears_lookup]
  rw [show lookupYear y ([] : YearAcc) = none from rfl]
  rw [foldl_addOpt_none _ (yearValues_ne_nil l y hy)]
  rfl

/-- C2 witness: an 18-month series spanning 1850 (12 months) and a partial
1851 (6 months); the 1851 annual value is the mean of the 6 months present. -/
theorem annual_average_is_yearly_mean_witness :
    ((1851 : Nat) ∈ (List.replicate 12 ((1850 : Nat), (2 : ℚ)) ++
        List.replicate 6 ((1851 : Nat), (4 : ℚ))).map Prod.fst) ∧
    lookupYear 1851 (annual_average (List.replicate 12 ((1850 : Nat), (2 : ℚ)) ++
        List.replicate 6 ((1851 : Nat), (4 : ℚ)))) =
      some ((yearValues (List.replicate 12 ((1850 : Nat), (2 : ℚ)) ++
        List.replicate 6 ((1851 : Nat), (4 : ℚ))) 1851).sum /
          ((yearValues (List.replicate 12 ((1850 : Nat), (2 : ℚ)) ++
        List.replicate 6 ((1851 : Nat), (4 : ℚ))) 1851).length : ℚ)) :=
  ⟨by decide, annual_average_is_yearly_mean _ 1851 (by decide)⟩

theorem addSample_of_not_mem (acc : YearAcc) (y : Nat) (v : ℚ)
    (hy : y ∉ acc.map (fun e => e.1)) :
    addSample acc y v = acc ++ [(y, v, 1)] := by
  induction acc with
  | nil => rfl
  | cons e rest ih =>
      obtain ⟨y₀, s, c⟩ := e
      simp only [List.map_cons, List.mem_cons] at hy
      push_neg at hy
      simp [addSample, Ne.symm hy.1, ih hy.2]

theorem accumulateYears_of_disjoint (l : MonthlySeries) (acc : YearAcc)
    (hl : (l.map Prod.fst).Nodup)
    (hd : ∀ y ∈ l.map Prod.fst, y ∉ acc.map (fun e => e.1)) :
    accumulateYears acc l = acc ++ l.map (fun p => (p.1, p.2, 1)) := by
  induction l generalizing acc with
  | nil => simp [accumulateYears]
  | cons p rest ih =>
      obtain ⟨y, v⟩ := p
      simp only [List.map_cons, List.nodup_cons] at hl
      rw [show accumulateYears acc ((y, v) :: rest) =
            accumulateYears (addSample acc y v) rest from rfl]
      rw [addSample_of_not_mem acc y v (hd y (by simp))]
      rw [ih (acc ++ [(y, v, 1)]) hl.2]
      · simp
      · intro y' hy'
        simp only [List.map_append, List.mem_append]
        push_neg
        refine ⟨hd y' (by simp [hy']), ?_⟩
        intro hc
        simp only [List.map_cons, List.map_nil, List.mem_singleton] at hc
        exact hl.1 (hc ▸ hy')

/-- C5 — `annual_average` is idempotent on already-annual input (when each
calendar year carries exactly one value the series is returned unchanged),
and it is total: every year present in the input — a trailing partial year
included — receives an output value rather than an error. -/
theorem annual_average_idempotent_and_total (l : MonthlySeries) :
    ((l.map Prod.fst).Nodup → annual_average l = l) ∧
    (∀ y ∈ l.map Prod.fst, ∃ q, lookupYear y (annual_average l) = some q) := by
  constructor
  · intro hl
    unfold annual_average
    rw [accumulateYears_of_disjoint l [] hl (by simp)]
    simp only [List.nil_append, List.map_map]
    have hid : ∀ p ∈ l, ((fun (e : Nat × ℚ × Nat) => (e.1, e.2.1 / (e.2.2 : ℚ))) ∘
        (fun (p : Nat × ℚ) => (p.1, p.2, 1))) p = p := by
      intro p _
      simp [Function.comp]
    rw [List.map_congr_left hid]
    exact l.map_id'
  · intro y hy
    exact ⟨_, annual_average_is_yearly_mean l y hy⟩

/-- C5 witness: a two-year annual series is returned unchanged, and the
year 2000 (a one-month "partial year") receives an output value. -/
theorem annual_average_idempotent_and_total_witness :
    (annual_average [((2000 : Nat), (5 : ℚ)), (2001, 7)] =
        [((2000 : Nat), (5 : ℚ)), (2001, 7)]) ∧
    (∃ q, lookupYear 2000
        (annual_average [((2000 : Nat), (5 : ℚ)), (2001, 7)]) = some q) :=
  ⟨(annual_average_idempotent_and_total _).1 (by decide),
    (annual_average_idempotent_and_total _).2 2000 (by decide)⟩

/-- C6 — The end-to-end annual-average scenario: 24 consecutive monthly
values, 12 months of 1.0 in 1850 followed by 12 months of 3.0 in 1851,
yield exactly the two annual values 1.0 and 3.0, in that order. -/
theorem annual_average_two_year_scenario :
    annual_average (List.replicate 12 ((1850 : Nat), (1 : ℚ)) ++
        List.replicate 12 ((1851 : Nat), (3 : ℚ))) =
      [(1850, 1), (1851, 3)] := by
  simp [annual_average, List.replicate, accumulateYears, addSample]
  norm_num

theorem zipWith_mul_const (f w : List ℚ) (c : ℚ)
    (hlen : f.length = w.length) (hw : ∀ x ∈ w, x = c) :
    List.zipWith (· * ·) f w = f.map (· * c) := by
  induction f generalizing w with
  | nil => simp
  | cons a f ih =>
      match w with
      | [] => simp at hlen
      | b :: w =>
          simp only [List.length_cons, Nat.succ.injEq] at hlen
          have hb : b = c := hw b (by simp)
          simp only [List.zipWith_cons_cons, List.map_cons, hb]
          rw [ih w hlen (fun x hx => hw x (by simp [hx]))]

theorem sum_of_const (w : List ℚ) (c : ℚ) (hw : ∀ x ∈ w, x = c) :
    w.sum = (w.length : ℚ) * c := by
  induction w with
  | nil => simp
  | cons b w ih =>
      have hb : b = c := hw b (by simp)
      rw [List.sum_cons, ih (fun x hx => hw x (by simp [hx])), hb,
        List.length_cons]
      push_cast
      ring

/-- C4 — For every 2-D time-varying field and every uniform positive
weight field of matching cell count, the area-weighted spatial mean
series equals the unweighted spatial mean series. -/
theorem uniform_weights_mean_eq_unweighted (fs : List Grid) (w : Grid) (c : ℚ)
    (hc : 0 < c) (hw : ∀ x ∈ w.flatten, x = c)
    (hlen : ∀ f ∈ fs, f.flatten.length = w.flatten.length) :
    globalMeanSeries fs w = fs.map unweightedMean := by
  unfold globalMeanSeries
  refine List.map_congr_left ?_
  intro f hf
  unfold weightedMean unweightedMean
  rw [zipWith_mul_const f.flatten w.flatten c (hlen f hf) hw,
    sum_of_const w.flatten c hw, ← hlen f hf]
  have hms : (f.flatten.map (· * c)).sum = c * f.flatten.sum := by
    induction f.flatten with
    | nil => simp
    | cons a l ih =>
        simp only [List.map_cons, List.sum_cons, ih]
        ring
  rw [hms, mul_comm ((f.flatten.length : ℚ)) c,
    mul_div_mul_left _ _ (ne_of_gt hc)]

/-- C4 witness: a one-step time series over a 2×2 grid with uniform
weight 2 has equal weighted and unweighted means. -/
theorem uniform_weights_mean_eq_unweighted_witness :
    (0 : ℚ) < 2 ∧
    globalMeanSeries [[[1, 2], [3, 5]]] [[2, 2], [2, 2]] =
      [[[(1 : ℚ), 2], [3, 5]]].map unweightedMean :=
  ⟨by norm_num,
    uniform_weights_mean_eq_unweighted _ _ 2 (by norm_num) (by decide)
      (by decide)⟩

theorem lookupName_eq_none {α : Type} (l : List (String × α)) (n : String)
    (hn : n ∉ l.map Prod.fst) : lookupName n l = none := by
  induction l with
  | nil => rfl
  | cons p rest ih =>
      obtain ⟨n', v⟩ := p
      simp only [List.map_cons, List.mem_cons] at hn
      push_neg at hn
      simp [lookupName, Ne.symm hn.1, ih hn.2]

theorem lookupName_of_mem {α : Type} (l : List (String × α)) (p : String × α)
    (hl : (l.map Prod.fst).Nodup) (hp : p ∈ l) : lookupName p.1 l = some p.2 := by
  induction l with
  | nil => simp at hp
  | cons q rest ih =>
      obtain ⟨n', v⟩ := q
      simp only [List.map_cons, List.nodup_cons] at hl
      rcases List.mem_cons.mp hp with h | h
      · subst h
        simp [lookupName]
      · have hne : n' ≠ p.1 := by
          intro he
          exact hl.1 (he ▸ List.mem_map.mpr ⟨p, h, rfl⟩)
        simp [lookupName, hne, ih hl.2 h]

theorem mergeTwo_disjoint (a b : DSet) (hc : a.coords = b.coords)
    (hd : ∀ n ∈ varNames b, n ∉ varNames a) :
    mergeTwo a b = Except.ok ⟨a.coords, a.vars ++ b.vars⟩ := by
  have hall : (b.vars.all (fun p =>
      match lookupName p.1 a.vars with
      | none => true
      | some d => decide (d = p.2))) = true := by
    rw [List.all_eq_true]
    intro p hp
    rw [lookupName_eq_none a.vars p.1 (hd p.1 (List.mem_map.mpr ⟨p, hp, rfl⟩))]
  have hfil : b.vars.filter (fun p => (lookupName p.1 a.vars).isNone) = b.vars := by
    rw [List.filter_eq_self]
    intro p hp
    rw [lookupName_eq_none a.vars p.1 (hd p.1 (List.mem_map.mpr ⟨p, hp, rfl⟩))]
    rfl
  simp [mergeTwo, hc, hall, hfil]

theorem mergeFrom_ok (rest : List DSet) (acc : DSet)
    (c : List (String × List ℚ))
    (hacc : acc.coords = c) (hal : ∀ a ∈ rest, a.coords = c)
    (hnd : (varNames acc ++ (rest.map varNames).flatten).Nodup) :
    mergeFrom acc rest =
      Except.ok ⟨c, acc.vars ++ (rest.map DSet.vars).flatten⟩ := by
  induction rest generalizing acc with
  | nil =>
      obtain ⟨ac, av⟩ := acc
      simp only [mergeFrom, List.map_nil, List.flatten_nil, List.append_nil]
      simp only at hacc
      rw [hacc]
  | cons b rest ih =>
      have hb : acc.coords = b.coords := by
        rw [hacc, hal b (by simp)]
      simp only [List.map_cons, List.flatten_cons] at hnd
      have hdis : ∀ n ∈ varNames b, n ∉ varNames acc := by
        have hdisj := (List.nodup_append.mp hnd).2.2
        intro n hnb hna
        exact hdisj hna (List.mem_append_left _ hnb)
      have hres := ih ⟨acc.coords, acc.vars ++ b.vars⟩ (by simpa using hacc)
        (fun a ha => hal a (by simp [ha]))
        (by
          show ((acc.vars ++ b.vars).map Prod.fst ++
            (rest.map varNames).flatten).Nodup
          rw [List.map_append]
          rw [List.append_assoc]
          exact hnd)
      rw [show mergeFrom acc (b :: rest) =
            (match mergeTwo acc b with
             | Except.ok m => mergeFrom m rest
             | Except.error e => Except.error e) from rfl]
      rw [mergeTwo_disjoint acc b hb hdis]
      show mergeFrom ⟨acc.coords, acc.vars ++ b.vars⟩ rest = _
      rw [hres]
      simp [List.append_assoc]

theorem map_fst_flatten_vars (dss : List DSet) :
    ((dss.map DSet.vars).flatten).map Prod.fst = (dss.map varNames).flatten := by
  simp [List.map_flatten, List.map_map, varNames]
  rfl

/-- C1 — Merging a non-empty list of per-variable datasets whose
coordinate axes are aligned succeeds and produces a dataset whose
variables are exactly the union (concatenation) of the inputs'
variables, with every input variable retrievable with its original
data (no data loss). -/
theorem merge_preserves_all_variables (dss : List DSet)
    (c : List (String × List ℚ))
    (hne : dss ≠ []) (hal : ∀ a ∈ dss, a.coords = c)
    (hnd : ((dss.map varNames).flatten).Nodup) :
    merge dss = Except.ok ⟨c, (dss.map DSet.vars).flatten⟩ ∧
    ∀ a ∈ dss, ∀ p ∈ a.vars,
      lookupName p.1 ((dss.map DSet.vars).flatten) = some p.2 := by
  constructor
  · match dss with
    | [] => exact absurd rfl hne
    | d :: rest =>
        show mergeFrom d rest = _
        rw [mergeFrom_ok rest d c (hal d (by simp))
          (fun a ha => hal a (by simp [ha]))
          (by simpa [List.map_cons, List.flatten_cons] using hnd)]
        simp
  · intro a ha p hp
    apply lookupName_of_mem
    · rw [map_fst_flatten_vars]
      exact hnd
    · exact List.mem_flatten.mpr ⟨a.vars, List.mem_map.mpr ⟨a, ha, rfl⟩, hp⟩

/-- C1 witness: a `zos` dataset and an `areacello` dataset on the same
coordinate axes merge into one dataset carrying both variables with
their original data. -/
theorem merge_preserves_all_variables_witness :
    ([DSet.mk [("time", [0, 1])] [("zos", [5, 6])],
      DSet.mk [("time", [0, 1])] [("areacello", [2, 3])]] ≠ []) ∧
    merge [DSet.mk [("time", [0, 1])] [("zos", [5, 6])],
        DSet.mk [("time", [0, 1])] [("areacello", [2, 3])]] =
      Except.ok ⟨[("time", [0, 1])],
        (([DSet.mk [("time", [0, 1])] [("zos", [5, 6])],
           DSet.mk [("time", [0, 1])] [("areacello", [2, 3])]].map
             DSet.vars).flatten)⟩ ∧
    lookupName "zos"
      (([DSet.mk [("time", [0, 1])] [("zos", [5, 6])],
         DSet.mk [("time", [0, 1])] [("areacello", [2, 3])]].map
           DSet.vars).flatten) = some [5, 6] :=
  ⟨by decide,
    (merge_preserves_all_variables _ [("time", [0, 1])] (by decide)
      (by decide) (by decide)).1,
    (merge_preserves_all_variables _ [("time", [0, 1])] (by decide)
      (by decide) (by decide)).2
      (DSet.mk [("time", [0, 1])] [("zos", [5, 6])]) (by decide)
      ("zos", [5, 6]) (by decide)⟩

/-- C7 — When the catalog query returns zero rows the store-open step
receives the empty list and the pipeline fails with the empty-input merge
error, which propagates to the caller unrecovered (no retry, no fallback
result). -/
theorem empty_catalog_merge_fails (load : CatalogRow → DSet)
    (catalog : List CatalogRow) (q : Query)
    (h : search catalog q = []) :
    loadAndMerge load catalog q = Except.error MergeError.emptyInput := by
  unfold loadAndMerge
  rw [h]
  rfl

/-- C7 witness: a query for a model absent from the catalog returns zero
rows and the pipeline surfaces the empty-input merge error. -/
theorem empty_catalog_merge_fails_witness :
    search pangeoCatalog
      ⟨["historical"], ["Omon"], ["zos"], "gn", "r1i1p1f1", "NO-SUCH-MODEL"⟩
      = [] ∧
    loadAndMerge (fun _ => ⟨[], []⟩) pangeoCatalog
      ⟨["historical"], ["Omon"], ["zos"], "gn", "r1i1p1f1", "NO-SUCH-MODEL"⟩
      = Except.error MergeError.emptyInput :=
  ⟨by decide, empty_catalog_merge_fails _ _ _ (by decide)⟩

/-- C8 — The notebook's first catalog query (zos/areacello, historical,
GFDL-ESM4) returns a non-empty table on the modelled catalog, and on any
catalog every returned row has `source_id` exactly `"GFDL-ESM4"`. -/
theorem search_returns_only_matching_source (catalog : List CatalogRow) :
    search pangeoCatalog zosQuery ≠ [] ∧
    ∀ r ∈ search catalog zosQuery, r.source_id = "GFDL-ESM4" := by
  constructor
  · decide
  · intro r hr
    have hm := (List.mem_filter.mp hr).2
    simp only [matchesQuery, Bool.and_eq_true, beq_iff_eq] at hm
    exact hm.2

/-- C8 witness: the modelled catalog's GFDL-ESM4 historical `zos` row is
returned by the query and its `source_id` is `"GFDL-ESM4"`. -/
theorem search_returns_only_matching_source_witness :
    search pangeoCatalog zosQuery ≠ [] ∧
    (CatalogRow.mk "historical" "Omon" "zos" "gn" "r1i1p1f1" "GFDL-ESM4"
      "gs://cmip6/CMIP6/CMIP/NOAA-GFDL/GFDL-ESM4/historical/r1i1p1f1/Omon/zos/gn/").source_id
      = "GFDL-ESM4" :=
  ⟨(search_returns_only_matching_source pangeoCatalog).1,
    (search_returns_only_matching_source pangeoCatalog).2 _ (by decide)⟩

theorem minByDist_eq_nil (l : List GaugeCandidate)
    (h : minByDist l = none) : l = [] := by
  match l with
  | [] => rfl
  | c :: rest =>
      exfalso
      rw [minByDist] at h
      cases hrec : minByDist rest with
      | none =>
          rw [hrec] at h
          exact Option.noConfusion h
      | some m =>
          rw [hrec] at h
          have h2 : (if c.dist ≤ m.dist then some c else some m) =
              (none : Option GaugeCandidate) := h
          by_cases hc : c.dist ≤ m.dist
          · rw [if_pos hc] at h2
            exact Option.noConfusion h2
          · rw [if_neg hc] at h2
            exact Option.noConfusion h2

theorem minByDist_spec (l : List GaugeCandidate) (m : GaugeCandidate)
    (hm : minByDist l = some m) : m ∈ l ∧ ∀ c ∈ l, m.dist ≤ c.dist := by
  induction l generalizing m with
  | nil => simp [minByDist] at hm
  | cons c rest ih =>
      rw [minByDist] at hm
      cases hrec : minByDist rest with
      | none =>
          rw [hrec] at hm
          have hm2 : some c = some m := hm
          obtain rfl := Option.some.inj hm2
          rw [minByDist_eq_nil rest hrec]
          exact ⟨by simp, by simp⟩
      | some m' =>
          rw [hrec] at hm
          have hm2 : (if c.dist ≤ m'.dist then some c else some m') = some m := hm
          obtain ⟨hmem', hle'⟩ := ih m' hrec
          by_cases hcm : c.dist ≤ m'.dist
          · rw [if_pos hcm] at hm2
            obtain rfl := Option.some.inj hm2
            refine ⟨by simp, ?_⟩
            intro c' hc'
            rcases List.mem_cons.mp hc' with h | h
            · simp [h]
            · exact le_trans hcm (hle' c' h)
          · rw [if_neg hcm] at hm2
            obtain rfl := Option.some.inj hm2
            refine ⟨by simp [hmem'], ?_⟩
            intro c' hc'
            rcases List.mem_cons.mp hc' with h | h
            · simp [h]
              exact le_of_lt (lt_of_not_le hcm)
            · exact hle' c' h

/-- C3 — Every location returned by the tide-gauge extraction carries a
wet grid point within the threshold distance, and a named location none
of whose wet points lies within the threshold is excluded from the
result. -/
theorem extract_tidegauge_within_threshold
    (locs : List (String × List GaugeCandidate)) (threshold : ℚ) :
    (∀ p ∈ extract_tidegauge locs threshold,
      p.2.wet = true ∧ p.2.dist ≤ threshold) ∧
    (∀ name : String,
      (∀ cands, (name, cands) ∈ locs →
        ∀ c ∈ cands, c.wet = true → threshold < c.dist) →
      ∀ p ∈ extract_tidegauge locs threshold, p.1 ≠ name) := by
  have hsel : ∀ p ∈ extract_tidegauge locs threshold,
      ∃ cands, (p.1, cands) ∈ locs ∧ nearestWet cands = some p.2 ∧
        p.2.dist ≤ threshold := by
    intro p hp
    obtain ⟨loc, hloc, hf⟩ := List.mem_filterMap.mp hp
    revert hf
    match hnw : nearestWet loc.2 with
    | none => intro hf; simp at hf
    | some c =>
        intro hf
        have hf2 : (if c.dist ≤ threshold then some (loc.1, c) else none) =
            some p := hf
        by_cases hth : c.dist ≤ threshold
        · rw [if_pos hth] at hf2
          obtain rfl : (loc.1, c) = p := Option.some.inj hf2
          exact ⟨loc.2, by simpa using hloc, hnw, hth⟩
        · rw [if_neg hth] at hf2
          exact Option.noConfusion hf2
  constructor
  · intro p hp
    obtain ⟨cands, _, hnw, hth⟩ := hsel p hp
    obtain ⟨hmem, _⟩ := minByDist_spec _ _ hnw
    exact ⟨(List.mem_filter.mp hmem).2, hth⟩
  · intro name hfar p hp hname
    obtain ⟨cands, hloc, hnw, hth⟩ := hsel p hp
    obtain ⟨hmem, _⟩ := minByDist_spec _ _ hnw
    have hwet : p.2.wet = true := (List.mem_filter.mp hmem).2
    have hcand : p.2 ∈ cands := (List.mem_filter.mp hmem).1
    have := hfar cands (hname ▸ hloc) p.2 hcand hwet
    exact absurd hth (not_le.mpr this)

/-- C3 witness: with the notebook's threshold 75.0, the returned
NEW_YORK point (nearest wet, distance 10) is wet and within the
threshold, and FARAWAY (only wet point at distance 100) is excluded, as
its name differs from that of every returned entry. -/
theorem extract_tidegauge_within_threshold_witness :
    (GaugeCandidate.mk 10 true).wet = true ∧
    (GaugeCandidate.mk 10 true).dist ≤ tideGaugeThreshold ∧
    ("NEW_YORK" : String) ≠ "FARAWAY" :=
  ⟨((extract_tidegauge_within_threshold
      [("NEW_YORK", [⟨10, true⟩, ⟨5, false⟩]), ("FARAWAY", [⟨100, true⟩])]
      tideGaugeThreshold).1 ("NEW_YORK", ⟨10, true⟩) (by decide)).1,
   ((extract_tidegauge_within_threshold
      [("NEW_YORK", [⟨10, true⟩, ⟨5, false⟩]), ("FARAWAY", [⟨100, true⟩])]
      tideGaugeThreshold).1 ("NEW_YORK", ⟨10, true⟩) (by decide)).2,
   (extract_tidegauge_within_threshold
      [("NEW_YORK", [⟨10, true⟩, ⟨5, false⟩]), ("FARAWAY", [⟨100, true⟩])]
      tideGaugeThreshold).2 "FARAWAY"
      (by
        intro cands hc
        rcases List.mem_cons.mp hc with h | h
        · have h1 : ("FARAWAY" : String) = "NEW_YORK" := congrArg Prod.fst h
          exact absurd h1 (by decide)
        · have h2 := List.mem_singleton.mp h
          have h3 := congrArg Prod.snd h2
          simp only at h3
          subst h3
          decide)
      ("NEW_YORK", ⟨10, true⟩) (by decide)⟩

/-- C10 — The wet mask takes only the values 0.0 and 1.0; a grid point is
0.0 exactly when `zos` at time index 0 is null there; and the mask is
determined solely by the first time step (later time steps do not affect
it). -/
theorem maskAt_wetMask (g : MaskedGrid) (rest : List MaskedGrid)
    (i j : Nat) :
    maskAt (wetMask (g :: rest)) i j =
      (fieldAt g i j).map (fun z => if z.isNone then (0 : ℚ) else 1) := by
  unfold maskAt wetMask fieldAt
  simp only [List.headD_cons, List.getElem?_map]
  cases g[i]? with
  | none => rfl
  | some row =>
      simp [List.getElem?_map]

theorem wetMask_binary_first_step_only (g : MaskedGrid)
    (rest rest' : List MaskedGrid) (i j : Nat) (v : ℚ)
    (hv : maskAt (wetMask (g :: rest)) i j = some v) :
    (v = 0 ∨ v = 1) ∧ (v = 0 ↔ fieldAt g i j = some none) ∧
    wetMask (g :: rest') = wetMask (g :: rest) := by
  rw [maskAt_wetMask] at hv
  cases hz : fieldAt g i j with
  | none =>
      rw [hz] at hv
      exact Option.noConfusion hv
  | some z =>
      rw [hz] at hv
      match z with
      | none =>
          have hv0 : v = 0 := by simpa using hv.symm
          subst hv0
          exact ⟨Or.inl rfl, ⟨fun _ => rfl, fun _ => rfl⟩, rfl⟩
      | some x =>
          have hv1 : v = 1 := by simpa using hv.symm
          subst hv1
          refine ⟨Or.inr rfl,
            ⟨fun h0 => absurd h0 (by norm_num), fun hf => ?_⟩, rfl⟩
          exact absurd (Option.some.inj hf) (by simp)

/-- C10 witness: on a 1×2 first time slice with one null and one valid
cell, the mask at the null cell is 0.0 (and in {0.0, 1.0}), and the mask
ignores the later time steps. -/
theorem wetMask_binary_first_step_only_witness :
    maskAt (wetMask [[[none, some 3]], [[some 4, none]]]) 0 0 = some 0 ∧
    ((0 : ℚ) = 0 ∨ (0 : ℚ) = 1) ∧
    ((0 : ℚ) = 0 ↔ fieldAt [[none, some 3]] 0 0 = some none) ∧
    wetMask [[[none, some 3]], [[some 9, some 9]]] =
      wetMask [[[none, some 3]], [[some 4, none]]] :=
  ⟨by decide,
    (wetMask_binary_first_step_only [[none, some 3]] [[[some 4, none]]]
      [[[some 9, some 9]]] 0 0 0 (by decide)).1,
    (wetMask_binary_first_step_only [[none, some 3]] [[[some 4, none]]]
      [[[some 9, some 9]]] 0 0 0 (by decide)).2.1,
    (wetMask_binary_first_step_only [[none, some 3]] [[[some 4, none]]]
      [[[some 9, some 9]]] 0 0 0 (by decide)).2.2⟩

/-- C9 counterexample — the claim says the notebook fixes nothing about
the steric calculation beyond the input window and the coordinate-name
mapping, but the call in cell 26 also fixes the analysis domain: its
`domain` option is not left unset. -/
theorem notebook_steric_fixes_domain :
    notebookStericOpts.domain ≠ none :=
  fun h => Option.noConfusion h

/-- C9 (amended) — The steric computation's input is exactly the
trailing window of the merged dataset (the last 360 time steps, all
earlier steps excluded), the depth coordinate is mapped via the name
"lev", and the only other thing the notebook fixes is the analysis
domain, `"global"`. -/
theorem steric_input_is_trailing_window {α : Type} (ts : List α) :
    ts.take (ts.length - 360) ++ stericInput ts = ts ∧
    (stericInput ts).length = min 360 ts.length ∧
    notebookStericOpts.coordNames = [("z", "lev")] ∧
    notebookStericOpts.domain = some "global" := by
  refine ⟨List.take_append_drop _ ts, ?_, rfl, rfl⟩
  show (ts.drop (ts.length - 360)).length = min 360 ts.length
  rw [List.length_drop]
  omega

end SLDemo
